import Mathlib

/-!
# Verification of the 3d-shape geometric builders

This file gives a shallow embedding of the three geometric construction
procedures of the repository and proves properties of them:

* `createRectangularPrismWithCubes` (from
  `mathematics/visualizations/rectangular_prism_visualization.js`): the grid of
  cells of a subdivided rectangular prism, each classified by its number of
  exposed faces;
* `atomPositions` / `createBonds` (from `diamond_visualization.js`): the atom
  positions of a diamond cubic lattice and the bonds inferred by distance
  thresholding;
* `createMultipleTetrahedrons` (from
  `shared/visualizations/tetrahedron_visualization.js`): the cluster of five
  tetrahedra sharing vertices.

Conventions.  JavaScript numbers are modelled as exact rationals (`ℚ`) where
the source only adds, subtracts and multiplies decimal values, and as reals
(`ℝ`) where the source takes square roots (`THREE.Vector3.normalize`,
`distanceTo`).  The source files hard-code their configuration constants
(`scale = 1.0`, `width/height/depth = 2/5/11`, `cellsX/Y/Z = 2`,
`unitCellSize = 3.57`); following the specification's builder contracts these
literals are lifted into parameters, with the hard-coded values used as the
concrete instances.
-/

set_option maxHeartbeats 3200000

namespace ShapeViz

/-! ## List helpers -/

/-- Sum of a `flatMap` is the sum of the sums of the pieces. -/
theorem sum_flatMap {α : Type} (l : List α) (f : α → List ℚ) :
    (l.flatMap f).sum = (l.map (fun a => (f a).sum)).sum := by
  induction l with
  | nil => rfl
  | cons a l ih => simp [List.flatMap_cons, List.sum_append, ih]

/-- Sum of a linear function over `List.range n`. -/
theorem sum_range_linear (n : ℕ) (a b : ℚ) :
    ((List.range n).map (fun (x : ℕ) => (x : ℚ) * a + b)).sum
      = (n : ℚ) * ((n : ℚ) - 1) / 2 * a + (n : ℚ) * b := by
  induction n with
  | zero => simp
  | succ m ih =>
      rw [List.range_succ, List.map_append, List.sum_append, ih]
      simp only [List.map_singleton, List.sum_singleton]
      push_cast
      ring

/-! ## Rectangular prism with cubes

Embedding of `createRectangularPrismWithCubes` from
`mathematics/visualizations/rectangular_prism_visualization.js` (lines
75–173).  The source assigns one of four materials according to the number of
exposed faces; the materials are modelled by the abstract category they encode
(corner / edge / face / interior, per the specification's category names). -/

/-- The four cube categories, corresponding to the four materials
`threeFacesExposedMaterial`, `twoFacesExposedMaterial`,
`oneFaceExposedMaterial` and `interiorCubeMaterial` of the source. -/
inductive CubeCategory where
  | corner
  | edge
  | face
  | interior
deriving DecidableEq, Repr

/-- One cube of the prism grid: its integer grid coordinate, its derived
exposed-face count, the category (material) chosen for it, and its placed
center position. -/
structure PrismCell where
  x : ℕ
  y : ℕ
  z : ℕ
  exposedFaces : ℕ
  category : CubeCategory
  posX : ℚ
  posY : ℚ
  posZ : ℚ

/-- The material selection chain of the source
(`if (exposedFaces === 3) … else if … else interiorCubeMaterial`),
as a pure function of the exposed-face count. -/
def materialFor (exposedFaces : ℕ) : CubeCategory :=
  if exposedFaces = 3 then CubeCategory.corner
  else if exposedFaces = 2 then CubeCategory.edge
  else if exposedFaces = 1 then CubeCategory.face
  else CubeCategory.interior

/-- The body of the triple loop of `createRectangularPrismWithCubes`: counts
the exposed faces of the cube at grid coordinate `(x, y, z)`, selects the
material, and places the cube with spacing. -/
def mkPrismCell (width height depth : ℕ) (cubeSize spacing : ℚ)
    (x y z : ℕ) : PrismCell :=
  let exposedFaces : ℕ :=
    (if x = 0 ∨ x = width - 1 then 1 else 0)
      + (if y = 0 ∨ y = height - 1 then 1 else 0)
      + (if z = 0 ∨ z = depth - 1 then 1 else 0)
  { x := x, y := y, z := z
    exposedFaces := exposedFaces
    category := materialFor exposedFaces
    posX := (x : ℚ) * (cubeSize + spacing)
      - (width : ℚ) * (cubeSize + spacing) / 2 + (cubeSize + spacing) / 2
    posY := (y : ℚ) * (cubeSize + spacing)
      - (height : ℚ) * (cubeSize + spacing) / 2 + (cubeSize + spacing) / 2
    posZ := (z : ℚ) * (cubeSize + spacing)
      - (depth : ℚ) * (cubeSize + spacing) / 2 + (cubeSize + spacing) / 2 }

/-- The builder `createRectangularPrismWithCubes`, parameterised by the dimensions and
sizes that the source hard-codes (`width = 2`, `height = 5`, `depth = 11`,
`cubeSize = 1`, `spacing = 0.2`): the list of all cubes produced by the
triple `for` loop, in loop order. -/
def createRectangularPrismWithCubes (width height depth : ℕ)
    (cubeSize spacing : ℚ) : List PrismCell :=
  (List.range width).flatMap fun x =>
    (List.range height).flatMap fun y =>
      (List.range depth).map fun z =>
        mkPrismCell width height depth cubeSize spacing x y z

/-- Number of axes on which a coordinate sits on the grid boundary
(`0` or `max - 1` on that axis) — the specification's description of the
exposed-face count. -/
def boundaryAxisCount (width height depth x y z : ℕ) : ℕ :=
  (List.filter (fun b => b)
    [decide (x = 0 ∨ x = width - 1),
     decide (y = 0 ∨ y = height - 1),
     decide (z = 0 ∨ z = depth - 1)]).length

/-! ## Diamond cubic lattice

Embedding of `createDiamondStructure` and `createBonds` from
`diamond_visualization.js` (lines 77–211).  All atom coordinates are produced
by additions and multiplications of decimal constants, so they are modelled
exactly in `ℚ`.  The source compares the Euclidean distance (a square root)
with the threshold `1.8`; since both sides are nonnegative this test is
equivalent to comparing the squared distance with the squared threshold, which
is how the executable bond filter below is phrased.  Theorem `c3_bond_scan`
re-states and proves the filter at the source's level, with the real-valued
`Vec3Q.distanceTo` and the threshold `1.8` itself. -/

/-- A 3-component rational position (`THREE.Vector3` as used by the diamond
script, whose arithmetic never leaves the rationals). -/
@[ext]
structure Vec3Q where
  x : ℚ
  y : ℚ
  z : ℚ
deriving DecidableEq, Repr

/-- Squared Euclidean distance between two positions. -/
def Vec3Q.distanceSq (a b : Vec3Q) : ℚ :=
  (a.x - b.x) ^ 2 + (a.y - b.y) ^ 2 + (a.z - b.z) ^ 2

/-- Euclidean distance between two positions (`THREE.Vector3.distanceTo`). -/
noncomputable def Vec3Q.distanceTo (a b : Vec3Q) : ℝ :=
  Real.sqrt (((a.x - b.x : ℚ) : ℝ) ^ 2 + ((a.y - b.y : ℚ) : ℝ) ^ 2
    + ((a.z - b.z : ℚ) : ℝ) ^ 2)

/-- The 4 FCC fractional offsets (`fccPositions` in the source). -/
def fccPositions : List Vec3Q :=
  [⟨0, 0, 0⟩, ⟨0, 0.5, 0.5⟩, ⟨0.5, 0, 0.5⟩, ⟨0.5, 0.5, 0⟩]

/-- The 8 atoms emitted for one grid cell: for each FCC offset, the primary
atom `base + offset*unitCellSize` followed by the second-sublattice atom
offset by `(0.25, 0.25, 0.25) * unitCellSize`, in emission order. -/
def cellAtoms (unitCellSize baseX baseY baseZ : ℚ) : List Vec3Q :=
  fccPositions.flatMap fun pos =>
    let atomX := baseX + pos.x * unitCellSize
    let atomY := baseY + pos.y * unitCellSize
    let atomZ := baseZ + pos.z * unitCellSize
    [⟨atomX, atomY, atomZ⟩,
     ⟨atomX + 0.25 * unitCellSize, atomY + 0.25 * unitCellSize,
      atomZ + 0.25 * unitCellSize⟩]

/-- The `atomPositions` array accumulated by `createDiamondStructure`,
parameterised by the grid dimensions and lattice constant that the source
hard-codes (`cellsX = cellsY = cellsZ = 2`, `unitCellSize = 3.57`).  The base
offset `(coord - cellsDim/2) * unitCellSize` centers the lattice at the
origin. -/
def atomPositions (cellsX cellsY cellsZ : ℕ) (unitCellSize : ℚ) : List Vec3Q :=
  (List.range cellsX).flatMap fun x =>
    (List.range cellsY).flatMap fun y =>
      (List.range cellsZ).flatMap fun z =>
        cellAtoms unitCellSize
          (((x : ℚ) - (cellsX : ℚ) / 2) * unitCellSize)
          (((y : ℚ) - (cellsY : ℚ) / 2) * unitCellSize)
          (((z : ℚ) - (cellsZ : ℚ) / 2) * unitCellSize)

/-- The bond threshold (`maxBondDistance = 1.8` in `createBonds`), a fixed
constant not derived from the lattice constant. -/
def maxBondDistance : ℚ := 1.8

/-- The bond scan `createBonds`: the exhaustive pairwise scan.  For each `i` and each
`j ∈ {i+1, …, n-1}` a bond `(i, j)` is emitted when the distance between
atoms `i` and `j` is below `maxBondDistance` (tested on squared distances;
see the section comment).  The `unitCellSize` parameter is received, as in
the source, but never used: the threshold is fixed. -/
def createBonds (atomPositions : List Vec3Q) (unitCellSize : ℚ) : List (ℕ × ℕ) :=
  (List.range atomPositions.length).flatMap fun i =>
    ((List.range' (i + 1) (atomPositions.length - (i + 1))).filter fun j =>
        decide (Vec3Q.distanceSq (atomPositions.getD i ⟨0, 0, 0⟩)
          (atomPositions.getD j ⟨0, 0, 0⟩) < maxBondDistance ^ 2)).map
      fun j => (i, j)

/-! Integer mirror of the concrete `2×2×2`, `unitCellSize = 3.57` lattice:
all its coordinates are integer multiples of `3.57/4 = 357/400`, so the
lattice is the image under `intToQ` of an integer-coordinate lattice.  The
mirror exists purely so that finite checks can be kernel-evaluated (the
kernel cannot reduce `ℚ` arithmetic); bridge lemmas prove it equal to the
source-level `atomPositions 2 2 2 3.57`. -/

/-- Scale integer lattice coordinates (in units of a quarter lattice
constant) back to rational positions. -/
def intToQ (p : ℤ × ℤ × ℤ) : Vec3Q :=
  ⟨(p.1 : ℚ) * (357 / 400), (p.2.1 : ℚ) * (357 / 400), (p.2.2 : ℚ) * (357 / 400)⟩

/-- Integer mirror of `cellAtoms` at quarter-lattice-constant scale, for a
cell with integer base coordinates `(bx, by, bz)`. -/
def intCellAtoms (bx bz1 bz2 : ℤ) : List (ℤ × ℤ × ℤ) :=
  [((0 : ℤ), (0 : ℤ), (0 : ℤ)), (0, 2, 2), (2, 0, 2), (2, 2, 0)].flatMap fun p =>
    let ax := bx + p.1
    let ay := bz1 + p.2.1
    let az := bz2 + p.2.2
    [(ax, ay, az), (ax + 1, ay + 1, az + 1)]

/-- Integer mirror of `atomPositions 2 2 2 3.57` at quarter-lattice-constant
scale. -/
def intAtoms : List (ℤ × ℤ × ℤ) :=
  (List.range 2).flatMap fun x =>
    (List.range 2).flatMap fun y =>
      (List.range 2).flatMap fun z =>
        intCellAtoms (4 * ((x : ℤ) - 1)) (4 * ((y : ℤ) - 1)) (4 * ((z : ℤ) - 1))

/-- Integer squared distance on the integer mirror. -/
def intDistSq (p q : ℤ × ℤ × ℤ) : ℤ :=
  (p.1 - q.1) ^ 2 + (p.2.1 - q.2.1) ^ 2 + (p.2.2 - q.2.2) ^ 2

/-- A two-atom configuration (distance 1 apart) used as a concrete instance
for the bond-scan theorem. -/
def twoAtoms : List Vec3Q := [⟨0, 0, 0⟩, ⟨1, 0, 0⟩]

/-! ## Tetrahedron cluster

Embedding of `createRegularTetrahedron` and `createMultipleTetrahedrons` from
`shared/visualizations/tetrahedron_visualization.js` (lines 74–284).
`THREE.Vector3.normalize` divides by the Euclidean length, a square root, so
this part is modelled over `ℝ`. -/

/-- A 3-component real position (`THREE.Vector3` as used by the tetrahedron
script). -/
@[ext]
structure Vec3 where
  x : ℝ
  y : ℝ
  z : ℝ

/-- Componentwise addition (`THREE.Vector3.add`). -/
def Vec3.add (a b : Vec3) : Vec3 := ⟨a.x + b.x, a.y + b.y, a.z + b.z⟩

/-- Componentwise subtraction (`THREE.Vector3.subVectors`). -/
def Vec3.sub (a b : Vec3) : Vec3 := ⟨a.x - b.x, a.y - b.y, a.z - b.z⟩

/-- Scalar multiplication (`THREE.Vector3.multiplyScalar`). -/
def Vec3.smul (c : ℝ) (a : Vec3) : Vec3 := ⟨c * a.x, c * a.y, c * a.z⟩

/-- Scalar division (`THREE.Vector3.divideScalar`). -/
noncomputable def Vec3.divScalar (a : Vec3) (c : ℝ) : Vec3 :=
  ⟨a.x / c, a.y / c, a.z / c⟩

/-- Euclidean length (`THREE.Vector3.length`). -/
noncomputable def Vec3.length (a : Vec3) : ℝ :=
  Real.sqrt (a.x ^ 2 + a.y ^ 2 + a.z ^ 2)

/-- Normalisation (`THREE.Vector3.normalize`): division by the length. -/
noncomputable def Vec3.normalize (a : Vec3) : Vec3 := a.divScalar a.length

/-- Euclidean distance (`THREE.Vector3.distanceTo`). -/
noncomputable def Vec3.distanceTo (a b : Vec3) : ℝ := (a.sub b).length

/-- The reference vertices of `createRegularTetrahedron`: the four
sign-alternating corners of a cube, indexed 0–3 as in the source. -/
def tetrahedronBaseVertices : Fin 4 → Vec3 := fun i =>
  match i with
  | ⟨0, _⟩ => ⟨1, 1, 1⟩
  | ⟨1, _⟩ => ⟨1, -1, -1⟩
  | ⟨2, _⟩ => ⟨-1, 1, -1⟩
  | ⟨3, _⟩ => ⟨-1, -1, 1⟩
  | ⟨n + 4, h⟩ => absurd h (by omega)

/-- The vertex array returned by `createRegularTetrahedron(center, scale)`:
each reference vertex is scaled by `scale` and translated by `center`. -/
def createRegularTetrahedronVertices (center : Vec3) (scale : ℝ) :
    Fin 4 → Vec3 :=
  fun i => (Vec3.smul scale (tetrahedronBaseVertices i)).add center

/-- The central tetrahedron of `createMultipleTetrahedrons`
(`createRegularTetrahedron(new THREE.Vector3(0,0,0), scale)`). -/
def centralTetraVertices (scale : ℝ) : Fin 4 → Vec3 :=
  createRegularTetrahedronVertices ⟨0, 0, 0⟩ scale

/-- The local `center` of the new-vertex loop: the mean of the three central
vertices `v[i], v[(i+1)%4], v[(i+2)%4]` shared with derived tetrahedron
`i` (`new THREE.Vector3().add(v1).add(v2).add(v3).divideScalar(3)`). -/
noncomputable def sharedMid (scale : ℝ) (i : Fin 4) : Vec3 :=
  ((((Vec3.mk 0 0 0).add (centralTetraVertices scale i)).add
      (centralTetraVertices scale (i + 1))).add
      (centralTetraVertices scale (i + 2))).divScalar 3

/-- The unit vector from `sharedMid` towards the opposite central vertex
`v[(i+3)%4]` (`directionToOpposite` in the source). -/
noncomputable def directionToOpposite (scale : ℝ) (i : Fin 4) : Vec3 :=
  ((centralTetraVertices scale (i + 3)).sub (sharedMid scale i)).normalize

/-- The new vertex of derived tetrahedron `i`
(`subVectors(center, directionToOpposite.multiplyScalar(scale * 1.63))`). -/
noncomputable def newVertex (scale : ℝ) (i : Fin 4) : Vec3 :=
  (sharedMid scale i).sub
    (Vec3.smul (scale * 1.63) (directionToOpposite scale i))

/-- The builder `createMultipleTetrahedrons`, parameterised by the scale the source
hard-codes (`scale = 1.0`): the vertex lists of the five tetrahedra in
emission order — the central one, then the four derived ones, derived
tetrahedron `i` using central vertices `i, (i+1)%4, (i+2)%4` plus
`newVertices[i]`. -/
noncomputable def createMultipleTetrahedrons (scale : ℝ) : List (List Vec3) :=
  [centralTetraVertices scale 0, centralTetraVertices scale 1,
   centralTetraVertices scale 2, centralTetraVertices scale 3] ::
    (List.finRange 4).map fun i =>
      [centralTetraVertices scale i, centralTetraVertices scale (i + 1),
       centralTetraVertices scale (i + 2), newVertex scale i]

/-- The dedup key of the vertex-marker loop: the string
`x.toFixed(6) + "," + y.toFixed(6) + "," + z.toFixed(6)`.  `toFixed(6)`
prints a sign (kept even when the magnitude rounds to zero, e.g.
`"-0.000000"`) followed by the absolute value rounded to 6 decimal places;
it is modelled as the sign together with the rounded scaled magnitude. -/
noncomputable def toFixed6Key (v : ℝ) : Bool × ℤ :=
  (if v < 0 then true else false, round (|v| * 1000000))

/-- The dedup key of a vertex, one `toFixed6Key` per coordinate. -/
noncomputable def vertexKey (p : Vec3) :
    (Bool × ℤ) × (Bool × ℤ) × (Bool × ℤ) :=
  (toFixed6Key p.x, toFixed6Key p.y, toFixed6Key p.z)

/-- The `addedVertices` set at the end of the vertex-marker loop: every
tetrahedron's vertices are visited and their keys collected. -/
noncomputable def addedVertices (scale : ℝ) :
    Finset ((Bool × ℤ) × (Bool × ℤ) × (Bool × ℤ)) :=
  (((createMultipleTetrahedrons scale).flatMap id).map vertexKey).toFinset

/-- The scalar `1/3 + (163/300)·√3`: for `scale > 0` every new vertex is
`-(kappa * scale)` times the opposite central reference vertex (proved in
`newVertex_closed`). -/
noncomputable def kappa : ℝ := 1 / 3 + 163 / 300 * Real.sqrt 3

/-- One-axis placement sums to zero: the placement rule
`pos = coord*(size+spacing) - dim*(size+spacing)/2 + (size+spacing)/2`
summed over `coord ∈ {0, …, dim-1}` is `0`. -/
theorem axis_placement_sum_zero (n : ℕ) (u : ℚ) :
    ((List.range n).map
      (fun (k : ℕ) => (k : ℚ) * u - (n : ℚ) * u / 2 + u / 2)).sum = 0 := by
  have h := sum_range_linear n u (-((n : ℚ) * u / 2) + u / 2)
  have hfun : (fun (k : ℕ) => (k : ℚ) * u - (n : ℚ) * u / 2 + u / 2)
      = fun (k : ℕ) => (k : ℚ) * u + (-((n : ℚ) * u / 2) + u / 2) := by
    funext k; ring
  rw [hfun, h]
  ring

/-- Sum of a constant over `List.range n`. -/
theorem sum_range_const (n : ℕ) (c : ℚ) :
    ((List.range n).map (fun (_ : ℕ) => c)).sum = (n : ℚ) * c := by
  induction n with
  | zero => simp
  | succ m ih =>
      rw [List.range_succ, List.map_append, List.sum_append, ih]
      simp only [List.map_singleton, List.sum_singleton]
      push_cast
      ring

/-- C6: `PrismCellClassifier.build(2,5,11,1,0.2)` produces exactly 110 cells
(every integer coordinate in range yields exactly one cell, none skipped or
duplicated), of which exactly 8 have `exposedFaceCount = 3` and exactly 0
have `exposedFaceCount = 0`. -/
theorem c6_prism_2_5_11_counts :
    (createRectangularPrismWithCubes 2 5 11 1 0.2).length = 110 ∧
    ((createRectangularPrismWithCubes 2 5 11 1 0.2).countP
      (fun c => decide (c.exposedFaces = 3))) = 8 ∧
    ((createRectangularPrismWithCubes 2 5 11 1 0.2).countP
      (fun c => decide (c.exposedFaces = 0))) = 0 ∧
    (∀ x < 2, ∀ y < 5, ∀ z < 11,
      ((createRectangularPrismWithCubes 2 5 11 1 0.2).countP
        (fun c => decide (c.x = x ∧ c.y = y ∧ c.z = z))) = 1) :=
  ⟨by decide, by decide, by decide, by decide⟩

/-- C7: every cell's `exposedFaceCount` is at most 3 and equals the number of
axes on which its coordinate sits on the grid boundary (a pure function of
position and dimensions), and its category is the pure function
`materialFor` of that count (3 ↦ corner, 2 ↦ edge, 1 ↦ face, 0 ↦ interior). -/
theorem c7_cell_classification (width height depth : ℕ) (hw : 1 ≤ width)
    (hh : 1 ≤ height) (hd : 1 ≤ depth) (cubeSize spacing : ℚ) :
    ∀ c ∈ createRectangularPrismWithCubes width height depth cubeSize spacing,
      c.exposedFaces ≤ 3 ∧
      c.exposedFaces = boundaryAxisCount width height depth c.x c.y c.z ∧
      c.category = materialFor c.exposedFaces := by
  intro c hc
  simp only [createRectangularPrismWithCubes, List.mem_flatMap, List.mem_map,
    List.mem_range] at hc
  obtain ⟨x, hx, y, hy, z, hz, rfl⟩ := hc
  refine ⟨?_, ?_, rfl⟩
  · simp only [mkPrismCell]
    split_ifs <;> simp
  · simp only [mkPrismCell, boundaryAxisCount]
    by_cases h1 : x = 0 ∨ x = width - 1 <;>
      by_cases h2 : y = 0 ∨ y = height - 1 <;>
        by_cases h3 : z = 0 ∨ z = depth - 1 <;>
          simp [h1, h2, h3, List.filter]

/-- Witness for `c7_cell_classification` at the 1×1×1 grid. -/
theorem c7_witness :
    (mkPrismCell 1 1 1 1 0.2 0 0 0).exposedFaces ≤ 3 ∧
    (mkPrismCell 1 1 1 1 0.2 0 0 0).exposedFaces
      = boundaryAxisCount 1 1 1 (mkPrismCell 1 1 1 1 0.2 0 0 0).x
          (mkPrismCell 1 1 1 1 0.2 0 0 0).y (mkPrismCell 1 1 1 1 0.2 0 0 0).z ∧
    (mkPrismCell 1 1 1 1 0.2 0 0 0).category
      = materialFor (mkPrismCell 1 1 1 1 0.2 0 0 0).exposedFaces :=
  c7_cell_classification 1 1 1 (by norm_num) (by norm_num) (by norm_num) 1 0.2
    (mkPrismCell 1 1 1 1 0.2 0 0 0)
    (by
      simp only [createRectangularPrismWithCubes, List.mem_flatMap,
        List.mem_map, List.mem_range]
      exact ⟨0, by norm_num, 0, by norm_num, 0, by norm_num, rfl⟩)

/-- C8: the placement rule puts the arithmetic mean of all cell center
positions at the origin, for any positive dimensions, cube size and
spacing. -/
theorem c8_grid_centered (width height depth : ℕ) (hw : 1 ≤ width)
    (hh : 1 ≤ height) (hd : 1 ≤ depth) (cubeSize spacing : ℚ)
    (hcs : 0 < cubeSize) (hsp : 0 < spacing) :
    (((createRectangularPrismWithCubes width height depth cubeSize
        spacing).map PrismCell.posX).sum)
      / (((createRectangularPrismWithCubes width height depth cubeSize
        spacing).length : ℚ)) = 0 ∧
    (((createRectangularPrismWithCubes width height depth cubeSize
        spacing).map PrismCell.posY).sum)
      / (((createRectangularPrismWithCubes width height depth cubeSize
        spacing).length : ℚ)) = 0 ∧
    (((createRectangularPrismWithCubes width height depth cubeSize
        spacing).map PrismCell.posZ).sum)
      / (((createRectangularPrismWithCubes width height depth cubeSize
        spacing).length : ℚ)) = 0 := by
  have hx : ((createRectangularPrismWithCubes width height depth cubeSize
      spacing).map PrismCell.posX).sum = 0 := by
    simp only [createRectangularPrismWithCubes, List.map_flatMap,
      List.map_map, sum_flatMap, Function.comp_def, mkPrismCell]
    simp only [sum_range_const]
    have hfun : (fun (x : ℕ) => (height : ℚ) * ((depth : ℚ)
          * ((x : ℚ) * (cubeSize + spacing)
            - (width : ℚ) * (cubeSize + spacing) / 2
            + (cubeSize + spacing) / 2)))
        = fun (x : ℕ) => (x : ℚ)
            * ((cubeSize + spacing) * ((height : ℚ) * (depth : ℚ)))
          + (height : ℚ) * (depth : ℚ) * ((cubeSize + spacing) / 2
            - (width : ℚ) * (cubeSize + spacing) / 2) := by
      funext k; ring
    rw [hfun, sum_range_linear]
    ring
  have hy : ((createRectangularPrismWithCubes width height depth cubeSize
      spacing).map PrismCell.posY).sum = 0 := by
    simp only [createRectangularPrismWithCubes, List.map_flatMap,
      List.map_map, sum_flatMap, Function.comp_def, mkPrismCell]
    simp only [sum_range_const]
    have hfun : (fun (y : ℕ) => (depth : ℚ)
          * ((y : ℚ) * (cubeSize + spacing)
            - (height : ℚ) * (cubeSize + spacing) / 2
            + (cubeSize + spacing) / 2))
        = fun (y : ℕ) => (y : ℚ) * ((cubeSize + spacing) * (depth : ℚ))
          + (depth : ℚ) * ((cubeSize + spacing) / 2
            - (height : ℚ) * (cubeSize + spacing) / 2) := by
      funext k; ring
    rw [hfun, sum_range_linear]
    ring
  have hz : ((createRectangularPrismWithCubes width height depth cubeSize
      spacing).map PrismCell.posZ).sum = 0 := by
    simp only [createRectangularPrismWithCubes, List.map_flatMap,
      List.map_map, sum_flatMap, Function.comp_def, mkPrismCell]
    simp only [axis_placement_sum_zero]
    simp [sum_range_const]
  exact ⟨by rw [hx, zero_div], by rw [hy, zero_div], by rw [hz, zero_div]⟩

/-- Witness for `c8_grid_centered` at the source's 2×5×11 configuration. -/
theorem c8_witness :
    (((createRectangularPrismWithCubes 2 5 11 1 0.2).map
        PrismCell.posX).sum)
      / (((createRectangularPrismWithCubes 2 5 11 1 0.2).length : ℚ)) = 0 ∧
    (((createRectangularPrismWithCubes 2 5 11 1 0.2).map
        PrismCell.posY).sum)
      / (((createRectangularPrismWithCubes 2 5 11 1 0.2).length : ℚ)) = 0 ∧
    (((createRectangularPrismWithCubes 2 5 11 1 0.2).map
        PrismCell.posZ).sum)
      / (((createRectangularPrismWithCubes 2 5 11 1 0.2).length : ℚ)) = 0 :=
  c8_grid_centered 2 5 11 (by norm_num) (by norm_num) (by norm_num) 1 0.2
    (by norm_num) (by norm_num)

/-! ## Diamond lattice lemmas -/

/-- Each grid cell emits exactly 8 atoms. -/
theorem length_cellAtoms (unitCellSize baseX baseY baseZ : ℚ) :
    (cellAtoms unitCellSize baseX baseY baseZ).length = 8 := rfl

/-- Sum of a constant over `List.range n`, in `ℕ`. -/
theorem sum_range_constN (n c : ℕ) :
    ((List.range n).map (fun (_ : ℕ) => c)).sum = n * c := by
  induction n with
  | zero => simp
  | succ m ih =>
      rw [List.range_succ, List.map_append, List.sum_append, ih]
      simp only [List.map_singleton, List.sum_singleton]
      ring

/-- The total atom count is `8 * cellsX * cellsY * cellsZ`. -/
theorem length_atomPositions (cellsX cellsY cellsZ : ℕ) (unitCellSize : ℚ) :
    (atomPositions cellsX cellsY cellsZ unitCellSize).length
      = 8 * (cellsX * cellsY * cellsZ) := by
  simp only [atomPositions, List.length_flatMap, Function.comp_def,
    length_cellAtoms]
  simp only [sum_range_constN]
  ring

/-- The real-valued distance is the square root of the rational squared
distance. -/
theorem distanceTo_eq_sqrt_distanceSq (a b : Vec3Q) :
    a.distanceTo b = Real.sqrt ((Vec3Q.distanceSq a b : ℚ) : ℝ) := by
  rw [Vec3Q.distanceTo]
  congr 1
  push_cast [Vec3Q.distanceSq]
  ring

/-- The source's bond test `distanceTo < 1.8` is equivalent to the squared
test used by the executable filter. -/
theorem distanceTo_lt_bondMax_iff (a b : Vec3Q) :
    a.distanceTo b < (1.8 : ℝ) ↔
      Vec3Q.distanceSq a b < maxBondDistance ^ 2 := by
  rw [distanceTo_eq_sqrt_distanceSq, Real.sqrt_lt' (by norm_num)]
  rw [show ((1.8 : ℝ)) ^ 2 = (((maxBondDistance ^ 2 : ℚ)) : ℝ) by
    norm_num [maxBondDistance]]
  exact Rat.cast_lt

/-- Membership characterisation of the pairwise bond scan: `(i, j)` is
emitted exactly when `j` is a later in-range index than `i` and the two atoms
are within the bond threshold. -/
theorem mem_createBonds_iff (atoms : List Vec3Q) (unitCellSize : ℚ)
    (i j : ℕ) :
    (i, j) ∈ createBonds atoms unitCellSize ↔
      j < atoms.length ∧ i < j ∧
        Vec3Q.distanceSq (atoms.getD i ⟨0, 0, 0⟩) (atoms.getD j ⟨0, 0, 0⟩)
          < maxBondDistance ^ 2 := by
  simp only [createBonds, List.mem_flatMap, List.mem_map, List.mem_filter,
    List.mem_range, List.mem_range'_1, decide_eq_true_eq, Prod.mk.injEq]
  constructor
  · rintro ⟨a, ha, b, ⟨⟨hb1, hb2⟩, hdist⟩, rfl, rfl⟩
    exact ⟨by omega, by omega, hdist⟩
  · rintro ⟨hj, hij, hdist⟩
    exact ⟨i, by omega, j, ⟨⟨by omega, by omega⟩, hdist⟩, rfl, rfl⟩

/-- The bond scan emits each pair at most once. -/
theorem createBonds_nodup (atoms : List Vec3Q) (unitCellSize : ℚ) :
    (createBonds atoms unitCellSize).Nodup := by
  rw [createBonds]
  refine List.nodup_flatMap.mpr ⟨?_, ?_⟩
  · intro i _
    exact (((List.nodup_range' _ _).filter _).map
      (fun a b h => by simpa using h))
  · refine List.Pairwise.imp ?_ (List.nodup_range _)
    intro a b hab
    intro p hpa hpb
    simp only [List.mem_map] at hpa hpb
    obtain ⟨ja, _, rfl⟩ := hpa
    obtain ⟨jb, _, h⟩ := hpb
    exact hab (by simpa using congrArg Prod.fst h.symm)

/-- C3: the bond set is exactly the set of unordered index pairs whose atoms
lie strictly closer than the fixed threshold `1.8`: every emitted bond is
below threshold, every below-threshold pair is emitted, no pair is emitted
twice, and the scan is independent of the lattice constant it receives. -/
theorem c3_bond_scan (atoms : List Vec3Q) (unitCellSize : ℚ) :
    (∀ (i j : ℕ) (hi : i < atoms.length) (hj : j < atoms.length),
      ((i, j) ∈ createBonds atoms unitCellSize ↔
        i < j ∧ Vec3Q.distanceTo (atoms.get ⟨i, hi⟩) (atoms.get ⟨j, hj⟩)
          < (1.8 : ℝ))) ∧
    (∀ p ∈ createBonds atoms unitCellSize,
      p.1 < p.2 ∧ p.2 < atoms.length) ∧
    (createBonds atoms unitCellSize).Nodup ∧
    (∀ unitCellSize₂ : ℚ,
      createBonds atoms unitCellSize₂ = createBonds atoms unitCellSize) := by
  refine ⟨?_, ?_, createBonds_nodup atoms unitCellSize, fun u => rfl⟩
  · intro i j hi hj
    rw [mem_createBonds_iff, distanceTo_lt_bondMax_iff,
      List.getD_eq_getElem atoms ⟨0, 0, 0⟩ hi,
      List.getD_eq_getElem atoms ⟨0, 0, 0⟩ hj]
    simp only [List.get_eq_getElem]
    tauto
  · intro p hp
    obtain ⟨i, j⟩ := p
    have h := (mem_createBonds_iff atoms unitCellSize i j).mp hp
    exact ⟨h.2.1, h.1⟩

/-- Witness for `c3_bond_scan`: in the two-atom configuration the pair
`(0, 1)` is at distance 1 and its bond is emitted. -/
theorem c3_witness : (0, 1) ∈ createBonds twoAtoms 3.57 :=
  ((c3_bond_scan twoAtoms 3.57).1 0 1 (by norm_num [twoAtoms])
      (by norm_num [twoAtoms])).mpr
    ⟨by norm_num, by
      rw [distanceTo_lt_bondMax_iff]
      norm_num [twoAtoms, Vec3Q.distanceSq, maxBondDistance]⟩

/-- C4: the builder emits, for each of the `cellsX*cellsY*cellsZ` grid cells
and each of the 4 FCC offsets, a primary atom at `base + offset*L` (with
`base(axis) = (coord - cellsDim/2)*L`) and a second atom displaced by
`(0.25, 0.25, 0.25)*L`, so the atom count is `8*cellsX*cellsY*cellsZ`; in
particular 64 atoms for the hard-coded 2×2×2 grid. -/
theorem c4_atom_count (cellsX cellsY cellsZ : ℕ) (unitCellSize : ℚ) :
    (atomPositions cellsX cellsY cellsZ unitCellSize).length
        = 8 * (cellsX * cellsY * cellsZ) ∧
    (∀ a : Vec3Q, a ∈ atomPositions cellsX cellsY cellsZ unitCellSize ↔
      ∃ x < cellsX, ∃ y < cellsY, ∃ z < cellsZ, ∃ p ∈ fccPositions,
        a = ⟨((x : ℚ) - (cellsX : ℚ) / 2) * unitCellSize + p.x * unitCellSize,
             ((y : ℚ) - (cellsY : ℚ) / 2) * unitCellSize + p.y * unitCellSize,
             ((z : ℚ) - (cellsZ : ℚ) / 2) * unitCellSize + p.z * unitCellSize⟩
        ∨
        a = ⟨((x : ℚ) - (cellsX : ℚ) / 2) * unitCellSize + p.x * unitCellSize
               + 0.25 * unitCellSize,
             ((y : ℚ) - (cellsY : ℚ) / 2) * unitCellSize + p.y * unitCellSize
               + 0.25 * unitCellSize,
             ((z : ℚ) - (cellsZ : ℚ) / 2) * unitCellSize + p.z * unitCellSize
               + 0.25 * unitCellSize⟩) ∧
    (atomPositions 2 2 2 3.57).length = 64 := by
  refine ⟨length_atomPositions _ _ _ _, ?_, by
    rw [length_atomPositions]⟩
  intro a
  simp only [atomPositions, cellAtoms, List.mem_flatMap, List.mem_range,
    List.mem_cons, List.mem_singleton, List.not_mem_nil, or_false]

/-- One cell of the hard-coded lattice, in quarter-lattice-constant integer
coordinates. -/
theorem cell_bridge (k1 k2 k3 : ℤ) :
    cellAtoms 3.57 ((k1 : ℚ) * (357 / 400)) ((k2 : ℚ) * (357 / 400))
      ((k3 : ℚ) * (357 / 400)) = (intCellAtoms k1 k2 k3).map intToQ := by
  simp only [cellAtoms, fccPositions, intCellAtoms, intToQ,
    List.flatMap_cons, List.flatMap_nil, List.map_cons, List.map_nil,
    List.append_nil, List.cons_append, List.nil_append, List.cons.injEq,
    Vec3Q.mk.injEq, and_true]
  norm_num
  ring_nf
  simp

/-- The hard-coded `2×2×2` lattice is the quarter-scaled integer lattice. -/
theorem atoms_bridge : atomPositions 2 2 2 3.57 = intAtoms.map intToQ := by
  simp only [atomPositions, intAtoms, List.map_flatMap]
  congr 1
  funext x
  congr 1
  funext y
  congr 1
  funext z
  rw [show ((x : ℚ) - ((2 : ℕ) : ℚ) / 2) * 3.57
        = ((4 * ((x : ℤ) - 1) : ℤ) : ℚ) * (357 / 400) by push_cast; ring,
    show ((y : ℚ) - ((2 : ℕ) : ℚ) / 2) * 3.57
        = ((4 * ((y : ℤ) - 1) : ℤ) : ℚ) * (357 / 400) by push_cast; ring,
    show ((z : ℚ) - ((2 : ℕ) : ℚ) / 2) * 3.57
        = ((4 * ((z : ℤ) - 1) : ℤ) : ℚ) * (357 / 400) by push_cast; ring]
  exact cell_bridge _ _ _

/-- Reading an entry commutes with mapping the quarter-scale embedding. -/
theorem getD_map_intToQ (l : List (ℤ × ℤ × ℤ)) (i : ℕ) :
    (l.map intToQ).getD i ⟨0, 0, 0⟩ = intToQ (l.getD i (0, 0, 0)) := by
  by_cases h : i < l.length
  · rw [List.getD_eq_getElem _ _ (by simpa using h),
      List.getD_eq_getElem _ _ h, List.getElem_map]
  · rw [List.getD_eq_default _ _ (by simpa using not_lt.mp h),
      List.getD_eq_default _ _ (not_lt.mp h)]
    simp [intToQ]

/-- Squared distances scale by `(357/400)²` between the integer mirror and
the rational lattice. -/
theorem distanceSq_intToQ (p q : ℤ × ℤ × ℤ) :
    Vec3Q.distanceSq (intToQ p) (intToQ q)
      = ((intDistSq p q : ℤ) : ℚ) * (357 / 400) ^ 2 := by
  simp only [Vec3Q.distanceSq, intToQ, intDistSq]
  push_cast
  ring

/-- On the integer mirror, the squared bond threshold test becomes
`intDistSq ≤ 4`. -/
theorem int_threshold_iff (k : ℤ) :
    ((k : ℚ) * (357 / 400) ^ 2 < maxBondDistance ^ 2) ↔ k ≤ 4 := by
  rw [maxBondDistance]
  constructor
  · intro h
    by_contra hk
    push_neg at hk
    have h5 : (5 : ℚ) ≤ (k : ℚ) := by exact_mod_cast hk
    nlinarith
  · intro hk
    have h4 : (k : ℚ) ≤ 4 := by exact_mod_cast hk
    nlinarith

/-- Membership in the bond list of the hard-coded lattice, phrased over the
integer mirror (hence decidable). -/
theorem bond_int_iff (i j : ℕ) :
    (i, j) ∈ createBonds (atomPositions 2 2 2 3.57) 3.57 ↔
      j < 64 ∧ i < j ∧
        intDistSq (intAtoms.getD i (0, 0, 0)) (intAtoms.getD j (0, 0, 0))
          ≤ 4 := by
  rw [mem_createBonds_iff, length_atomPositions, atoms_bridge,
    getD_map_intToQ, getD_map_intToQ, distanceSq_intToQ, int_threshold_iff]

/-- Any bonded pair of the hard-coded lattice has one even and one odd index
and integer squared distance exactly 3; any distinct same-parity pair is at
integer squared distance at least 8.  (Atoms are emitted in primary/offset
pairs, so even indices are the first FCC sublattice and odd indices the
second.) -/
theorem intAtoms_pair_facts :
    (∀ i < 64, ∀ j < 64, i < j →
      intDistSq (intAtoms.getD i (0, 0, 0)) (intAtoms.getD j (0, 0, 0)) ≤ 4 →
        ¬ i % 2 = j % 2 ∧
          intDistSq (intAtoms.getD i (0, 0, 0)) (intAtoms.getD j (0, 0, 0))
            = 3) ∧
    (∀ i < 64, ∀ j < 64, ¬ i = j → i % 2 = j % 2 →
      8 ≤ intDistSq (intAtoms.getD i (0, 0, 0)) (intAtoms.getD j (0, 0, 0))) :=
  ⟨by decide, by decide⟩

/-- C10: every emitted bond of the 2×2×2, lattice-constant-3.57 structure
joins an atom of the first FCC sublattice (even emission index) to one of the
second, `(0.25,0.25,0.25)`-offset sublattice (odd emission index); every
bond's length is `√3/4` times the lattice constant; and distinct atoms of the
same sublattice are at squared distance at least `3.57²/2` (that is, at least
`3.57/√2`), which exceeds the threshold. -/
theorem c10_bond_sublattices :
    (∀ p ∈ createBonds (atomPositions 2 2 2 3.57) 3.57,
      ¬ p.1 % 2 = p.2 % 2 ∧
      Vec3Q.distanceSq ((atomPositions 2 2 2 3.57).getD p.1 ⟨0, 0, 0⟩)
          ((atomPositions 2 2 2 3.57).getD p.2 ⟨0, 0, 0⟩)
        = 3 * 3.57 ^ 2 / 16 ∧
      Vec3Q.distanceTo ((atomPositions 2 2 2 3.57).getD p.1 ⟨0, 0, 0⟩)
          ((atomPositions 2 2 2 3.57).getD p.2 ⟨0, 0, 0⟩)
        = Real.sqrt 3 / 4 * 3.57) ∧
    (∀ i j : ℕ, i < 64 → j < 64 → ¬ i = j → i % 2 = j % 2 →
      3.57 ^ 2 / 2 ≤
        Vec3Q.distanceSq ((atomPositions 2 2 2 3.57).getD i ⟨0, 0, 0⟩)
          ((atomPositions 2 2 2 3.57).getD j ⟨0, 0, 0⟩)) := by
  constructor
  · rintro ⟨i, j⟩ hp
    obtain ⟨hj, hij, hd⟩ := (bond_int_iff i j).mp hp
    obtain ⟨hpar, hval⟩ :=
      intAtoms_pair_facts.1 i (lt_trans hij hj) j hj hij hd
    have hsq : Vec3Q.distanceSq
        ((atomPositions 2 2 2 3.57).getD i ⟨0, 0, 0⟩)
        ((atomPositions 2 2 2 3.57).getD j ⟨0, 0, 0⟩)
          = 3 * 3.57 ^ 2 / 16 := by
      rw [atoms_bridge, getD_map_intToQ, getD_map_intToQ, distanceSq_intToQ,
        hval]
      norm_num
    refine ⟨hpar, hsq, ?_⟩
    rw [distanceTo_eq_sqrt_distanceSq, hsq]
    rw [show (((3 * 3.57 ^ 2 / 16 : ℚ)) : ℝ)
          = (Real.sqrt 3 / 4 * 3.57) ^ 2 by
      rw [mul_pow, div_pow, Real.sq_sqrt (by norm_num : (0 : ℝ) ≤ 3)]
      push_cast
      norm_num]
    exact Real.sqrt_sq (by positivity)
  · intro i j hi hj hne hpar
    have h8 := intAtoms_pair_facts.2 i hi j hj hne hpar
    rw [atoms_bridge, getD_map_intToQ, getD_map_intToQ, distanceSq_intToQ]
    have h8q : (8 : ℚ) ≤ ((intDistSq (intAtoms.getD i (0, 0, 0))
        (intAtoms.getD j (0, 0, 0)) : ℤ) : ℚ) := by exact_mod_cast h8
    nlinarith

/-- Witness for `c10_bond_sublattices`: the bond `(0, 1)` joins the two
sublattices and has length `√3/4 · 3.57`. -/
theorem c10_witness :
    ¬ (0, 1).1 % 2 = (0, 1).2 % 2 ∧
    Vec3Q.distanceSq ((atomPositions 2 2 2 3.57).getD (0, 1).1 ⟨0, 0, 0⟩)
        ((atomPositions 2 2 2 3.57).getD (0, 1).2 ⟨0, 0, 0⟩)
      = 3 * 3.57 ^ 2 / 16 ∧
    Vec3Q.distanceTo ((atomPositions 2 2 2 3.57).getD (0, 1).1 ⟨0, 0, 0⟩)
        ((atomPositions 2 2 2 3.57).getD (0, 1).2 ⟨0, 0, 0⟩)
      = Real.sqrt 3 / 4 * 3.57 :=
  c10_bond_sublattices.1 (0, 1)
    ((bond_int_iff 0 1).mpr ⟨by norm_num, by norm_num, by decide⟩)

/-- Counterexample to C9: given non-positive (zero or negative) inputs, each
builder still returns an ordinary, degenerate or mirrored, model — no
invalid-argument condition interrupts construction.  (The source performs no
input validation at all; its functions are total.) -/
theorem c9_counterexample :
    (createRectangularPrismWithCubes 0 5 11 1 0.2).length = 0 ∧
    (atomPositions 0 2 2 3.57).length = 0 ∧
    (createMultipleTetrahedrons (-1)).length = 5 :=
  ⟨rfl, rfl, rfl⟩

/-- C9 as amended: the builders perform no input validation; with a zero
dimension the prism and diamond builders return empty models, and the
tetrahedron builder returns its five tetrahedra for every scale, including
non-positive ones, without signalling any error. -/
theorem c9_no_input_validation :
    (∀ (height depth : ℕ) (cubeSize spacing : ℚ),
      createRectangularPrismWithCubes 0 height depth cubeSize spacing = []) ∧
    (∀ (cellsY cellsZ : ℕ) (unitCellSize : ℚ),
      atomPositions 0 cellsY cellsZ unitCellSize = []) ∧
    (∀ scale : ℝ, (createMultipleTetrahedrons scale).length = 5) :=
  ⟨fun _ _ _ _ => rfl, fun _ _ _ => rfl, fun _ => rfl⟩

/-! ## Tetrahedron cluster lemmas -/

theorem sqrt3_mul_self : Real.sqrt 3 * Real.sqrt 3 = 3 :=
  Real.mul_self_sqrt (by norm_num)

theorem inv_sqrt3 : (Real.sqrt 3)⁻¹ = Real.sqrt 3 / 3 := by
  have h3 : Real.sqrt 3 ≠ 0 := by positivity
  field_simp

/-- Length of a vector whose components are unit signs times `t ≥ 0`. -/
theorem length_uniform (t : ℝ) (ht : 0 ≤ t) (e1 e2 e3 : ℝ) (h1 : e1 ^ 2 = 1)
    (h2 : e2 ^ 2 = 1) (h3 : e3 ^ 2 = 1) :
    Vec3.length ⟨e1 * t, e2 * t, e3 * t⟩ = t * Real.sqrt 3 := by
  rw [Vec3.length]
  rw [show (e1 * t) ^ 2 + (e2 * t) ^ 2 + (e3 * t) ^ 2
        = (t * Real.sqrt 3) ^ 2 by
    linear_combination t ^ 2 * h1 + t ^ 2 * h2 + t ^ 2 * h3
      - t ^ 2 * Real.sq_sqrt (by norm_num : (0 : ℝ) ≤ 3)]
  exact Real.sqrt_sq (by positivity)

/-- Normalisation of a vector whose components are unit signs times
`t > 0`. -/
theorem normalize_uniform (t : ℝ) (ht : 0 < t) (e1 e2 e3 : ℝ)
    (h1 : e1 ^ 2 = 1) (h2 : e2 ^ 2 = 1) (h3 : e3 ^ 2 = 1) :
    Vec3.normalize ⟨e1 * t, e2 * t, e3 * t⟩
      = ⟨e1 / Real.sqrt 3, e2 / Real.sqrt 3, e3 / Real.sqrt 3⟩ := by
  rw [Vec3.normalize, length_uniform t ht.le e1 e2 e3 h1 h2 h3,
    Vec3.divScalar]
  have hs3 : Real.sqrt 3 ≠ 0 := by positivity
  have ht' : t ≠ 0 := ht.ne'
  ext <;> (field_simp; try ring)

/-- Closed form of the shared-face centroid, opposite direction and new
vertex for derived tetrahedron 0. -/
theorem tetra_closed_0 (s : ℝ) (hs : 0 < s) :
    sharedMid s 0 = ⟨s / 3, s / 3, -(s / 3)⟩ ∧
    directionToOpposite s 0
      = ⟨-1 / Real.sqrt 3, -1 / Real.sqrt 3, 1 / Real.sqrt 3⟩ ∧
    newVertex s 0 = ⟨kappa * s, kappa * s, -(kappa * s)⟩ := by
  have hmid : sharedMid s 0 = ⟨s / 3, s / 3, -(s / 3)⟩ := by
    ext <;>
      simp only [sharedMid, centralTetraVertices,
        createRegularTetrahedronVertices, tetrahedronBaseVertices, Vec3.add,
        Vec3.smul, Vec3.divScalar] <;>
      ring
  have hsub : (centralTetraVertices s (0 + 3)).sub (sharedMid s 0)
      = ⟨(-1) * (4 * s / 3), (-1) * (4 * s / 3), 1 * (4 * s / 3)⟩ := by
    rw [hmid]
    ext <;>
      simp only [centralTetraVertices, createRegularTetrahedronVertices,
        tetrahedronBaseVertices, Vec3.add, Vec3.smul, Vec3.sub] <;>
      ring
  have hdir : directionToOpposite s 0
      = ⟨-1 / Real.sqrt 3, -1 / Real.sqrt 3, 1 / Real.sqrt 3⟩ := by
    rw [directionToOpposite, hsub, normalize_uniform (4 * s / 3)
      (by positivity) (-1) (-1) 1 (by norm_num) (by norm_num) (by norm_num)]
  have hnew : newVertex s 0 = ⟨kappa * s, kappa * s, -(kappa * s)⟩ := by
    rw [newVertex, hmid, hdir]
    ext <;>
      simp only [Vec3.sub, Vec3.smul, kappa, neg_div, one_div, inv_sqrt3] <;>
      ring
  exact ⟨hmid, hdir, hnew⟩

/-- Closed form of the shared-face centroid, opposite direction and new
vertex for derived tetrahedron 1. -/
theorem tetra_closed_1 (s : ℝ) (hs : 0 < s) :
    sharedMid s 1 = ⟨-(s / 3), -(s / 3), -(s / 3)⟩ ∧
    directionToOpposite s 1
      = ⟨1 / Real.sqrt 3, 1 / Real.sqrt 3, 1 / Real.sqrt 3⟩ ∧
    newVertex s 1 = ⟨-(kappa * s), -(kappa * s), -(kappa * s)⟩ := by
  have hmid : sharedMid s 1 = ⟨-(s / 3), -(s / 3), -(s / 3)⟩ := by
    ext <;>
      simp only [sharedMid, centralTetraVertices,
        createRegularTetrahedronVertices, tetrahedronBaseVertices, Vec3.add,
        Vec3.smul, Vec3.divScalar] <;>
      ring
  have hsub : (centralTetraVertices s (1 + 3)).sub (sharedMid s 1)
      = ⟨1 * (4 * s / 3), 1 * (4 * s / 3), 1 * (4 * s / 3)⟩ := by
    rw [hmid]
    ext <;>
      simp only [centralTetraVertices, createRegularTetrahedronVertices,
        tetrahedronBaseVertices, Vec3.add, Vec3.smul, Vec3.sub] <;>
      ring
  have hdir : directionToOpposite s 1
      = ⟨1 / Real.sqrt 3, 1 / Real.sqrt 3, 1 / Real.sqrt 3⟩ := by
    rw [directionToOpposite, hsub, normalize_uniform (4 * s / 3)
      (by positivity) 1 1 1 (by norm_num) (by norm_num) (by norm_num)]
  have hnew : newVertex s 1
      = ⟨-(kappa * s), -(kappa * s), -(kappa * s)⟩ := by
    rw [newVertex, hmid, hdir]
    ext <;>
      simp only [Vec3.sub, Vec3.smul, kappa, neg_div, one_div, inv_sqrt3] <;>
      ring
  exact ⟨hmid, hdir, hnew⟩

/-- Closed form of the shared-face centroid, opposite direction and new
vertex for derived tetrahedron 2. -/
theorem tetra_closed_2 (s : ℝ) (hs : 0 < s) :
    sharedMid s 2 = ⟨-(s / 3), s / 3, s / 3⟩ ∧
    directionToOpposite s 2
      = ⟨1 / Real.sqrt 3, -1 / Real.sqrt 3, -1 / Real.sqrt 3⟩ ∧
    newVertex s 2 = ⟨-(kappa * s), kappa * s, kappa * s⟩ := by
  have hmid : sharedMid s 2 = ⟨-(s / 3), s / 3, s / 3⟩ := by
    ext <;>
      simp only [sharedMid, centralTetraVertices,
        createRegularTetrahedronVertices, tetrahedronBaseVertices, Vec3.add,
        Vec3.smul, Vec3.divScalar] <;>
      ring
  have hsub : (centralTetraVertices s (2 + 3)).sub (sharedMid s 2)
      = ⟨1 * (4 * s / 3), (-1) * (4 * s / 3), (-1) * (4 * s / 3)⟩ := by
    rw [hmid]
    ext <;>
      simp only [centralTetraVertices, createRegularTetrahedronVertices,
        tetrahedronBaseVertices, Vec3.add, Vec3.smul, Vec3.sub] <;>
      ring
  have hdir : directionToOpposite s 2
      = ⟨1 / Real.sqrt 3, -1 / Real.sqrt 3, -1 / Real.sqrt 3⟩ := by
    rw [directionToOpposite, hsub, normalize_uniform (4 * s / 3)
      (by positivity) 1 (-1) (-1) (by norm_num) (by norm_num) (by norm_num)]
  have hnew : newVertex s 2 = ⟨-(kappa * s), kappa * s, kappa * s⟩ := by
    rw [newVertex, hmid, hdir]
    ext <;>
      simp only [Vec3.sub, Vec3.smul, kappa, neg_div, one_div, inv_sqrt3] <;>
      ring
  exact ⟨hmid, hdir, hnew⟩

/-- Closed form of the shared-face centroid, opposite direction and new
vertex for derived tetrahedron 3. -/
theorem tetra_closed_3 (s : ℝ) (hs : 0 < s) :
    sharedMid s 3 = ⟨s / 3, -(s / 3), s / 3⟩ ∧
    directionToOpposite s 3
      = ⟨-1 / Real.sqrt 3, 1 / Real.sqrt 3, -1 / Real.sqrt 3⟩ ∧
    newVertex s 3 = ⟨kappa * s, -(kappa * s), kappa * s⟩ := by
  have hmid : sharedMid s 3 = ⟨s / 3, -(s / 3), s / 3⟩ := by
    ext <;>
      simp only [sharedMid, centralTetraVertices,
        createRegularTetrahedronVertices, tetrahedronBaseVertices, Vec3.add,
        Vec3.smul, Vec3.divScalar] <;>
      ring
  have hsub : (centralTetraVertices s (3 + 3)).sub (sharedMid s 3)
      = ⟨(-1) * (4 * s / 3), 1 * (4 * s / 3), (-1) * (4 * s / 3)⟩ := by
    rw [hmid]
    ext <;>
      simp only [centralTetraVertices, createRegularTetrahedronVertices,
        tetrahedronBaseVertices, Vec3.add, Vec3.smul, Vec3.sub] <;>
      ring
  have hdir : directionToOpposite s 3
      = ⟨-1 / Real.sqrt 3, 1 / Real.sqrt 3, -1 / Real.sqrt 3⟩ := by
    rw [directionToOpposite, hsub, normalize_uniform (4 * s / 3)
      (by positivity) (-1) 1 (-1) (by norm_num) (by norm_num) (by norm_num)]
  have hnew : newVertex s 3 = ⟨kappa * s, -(kappa * s), kappa * s⟩ := by
    rw [newVertex, hmid, hdir]
    ext <;>
      simp only [Vec3.sub, Vec3.smul, kappa, neg_div, one_div, inv_sqrt3] <;>
      ring
  exact ⟨hmid, hdir, hnew⟩

/-- Closed form of the four central vertices. -/
theorem central_closed (s : ℝ) :
    centralTetraVertices s 0 = ⟨s, s, s⟩ ∧
    centralTetraVertices s 1 = ⟨s, -s, -s⟩ ∧
    centralTetraVertices s 2 = ⟨-s, s, -s⟩ ∧
    centralTetraVertices s 3 = ⟨-s, -s, s⟩ := by
  refine ⟨?_, ?_, ?_, ?_⟩ <;>
    · ext <;>
        simp only [centralTetraVertices, createRegularTetrahedronVertices,
          tetrahedronBaseVertices, Vec3.add, Vec3.smul] <;>
        ring

/-- The squared distance as a quadratic polynomial in the coordinates. -/
theorem distanceTo_sq (a b : Vec3) :
    (Vec3.distanceTo a b) ^ 2
      = (a.x - b.x) ^ 2 + (a.y - b.y) ^ 2 + (a.z - b.z) ^ 2 := by
  rw [Vec3.distanceTo, Vec3.length]
  simp only [Vec3.sub]
  exact Real.sq_sqrt (by positivity)

/-- Edge-length census of derived tetrahedron 0: the three shared edges
have squared length `8s²` while the three new edges have squared length
`(159707/30000)s²`, a different value. -/
theorem c1_case_0 (s : ℝ) (hs : 0 < s) :
    (Vec3.distanceTo (centralTetraVertices s 0) (centralTetraVertices s 1)) ^ 2
      = 8 * s ^ 2 ∧
    (Vec3.distanceTo (centralTetraVertices s 0) (centralTetraVertices s 2)) ^ 2
      = 8 * s ^ 2 ∧
    (Vec3.distanceTo (centralTetraVertices s 1) (centralTetraVertices s 2)) ^ 2
      = 8 * s ^ 2 ∧
    (Vec3.distanceTo (newVertex s 0) (centralTetraVertices s 0)) ^ 2
      = 159707 / 30000 * s ^ 2 ∧
    (Vec3.distanceTo (newVertex s 0) (centralTetraVertices s 1)) ^ 2
      = 159707 / 30000 * s ^ 2 ∧
    (Vec3.distanceTo (newVertex s 0) (centralTetraVertices s 2)) ^ 2
      = 159707 / 30000 * s ^ 2 ∧
    Vec3.distanceTo (newVertex s 0) (centralTetraVertices s 0)
      ≠ Vec3.distanceTo (centralTetraVertices s 0) (centralTetraVertices s 1) := by
  obtain ⟨h0, h1, h2, h3⟩ := central_closed s
  obtain ⟨-, -, hn⟩ := tetra_closed_0 s hs
  have ha : (Vec3.distanceTo (newVertex s 0) (centralTetraVertices s 0)) ^ 2
      = 159707 / 30000 * s ^ 2 := by
    rw [distanceTo_sq, hn, h0]
    simp only [kappa]
    linear_combination (26569 / 30000 * s ^ 2) * sqrt3_mul_self
  have hb : (Vec3.distanceTo (centralTetraVertices s 0)
      (centralTetraVertices s 1)) ^ 2 = 8 * s ^ 2 := by
    rw [distanceTo_sq, h0, h1]
    ring
  refine ⟨hb, ?_, ?_, ha, ?_, ?_, ?_⟩
  · rw [distanceTo_sq, h0, h2]
    ring
  · rw [distanceTo_sq, h1, h2]
    ring
  · rw [distanceTo_sq, hn, h1]
    simp only [kappa]
    linear_combination (26569 / 30000 * s ^ 2) * sqrt3_mul_self
  · rw [distanceTo_sq, hn, h2]
    simp only [kappa]
    linear_combination (26569 / 30000 * s ^ 2) * sqrt3_mul_self
  · intro heq
    have hq : (Vec3.distanceTo (newVertex s 0) (centralTetraVertices s 0)) ^ 2
        = (Vec3.distanceTo (centralTetraVertices s 0)
            (centralTetraVertices s 1)) ^ 2 := by rw [heq]
    rw [ha, hb] at hq
    nlinarith [pow_pos hs 2]

/-- Edge-length census of derived tetrahedron 1: the three shared edges
have squared length `8s²` while the three new edges have squared length
`(159707/30000)s²`, a different value. -/
theorem c1_case_1 (s : ℝ) (hs : 0 < s) :
    (Vec3.distanceTo (centralTetraVertices s 1) (centralTetraVertices s 2)) ^ 2
      = 8 * s ^ 2 ∧
    (Vec3.distanceTo (centralTetraVertices s 1) (centralTetraVertices s 3)) ^ 2
      = 8 * s ^ 2 ∧
    (Vec3.distanceTo (centralTetraVertices s 2) (centralTetraVertices s 3)) ^ 2
      = 8 * s ^ 2 ∧
    (Vec3.distanceTo (newVertex s 1) (centralTetraVertices s 1)) ^ 2
      = 159707 / 30000 * s ^ 2 ∧
    (Vec3.distanceTo (newVertex s 1) (centralTetraVertices s 2)) ^ 2
      = 159707 / 30000 * s ^ 2 ∧
    (Vec3.distanceTo (newVertex s 1) (centralTetraVertices s 3)) ^ 2
      = 159707 / 30000 * s ^ 2 ∧
    Vec3.distanceTo (newVertex s 1) (centralTetraVertices s 1)
      ≠ Vec3.distanceTo (centralTetraVertices s 1) (centralTetraVertices s 2) := by
  obtain ⟨h0, h1, h2, h3⟩ := central_closed s
  obtain ⟨-, -, hn⟩ := tetra_closed_1 s hs
  have ha : (Vec3.distanceTo (newVertex s 1) (centralTetraVertices s 1)) ^ 2
      = 159707 / 30000 * s ^ 2 := by
    rw [distanceTo_sq, hn, h1]
    simp only [kappa]
    linear_combination (26569 / 30000 * s ^ 2) * sqrt3_mul_self
  have hb : (Vec3.distanceTo (centralTetraVertices s 1)
      (centralTetraVertices s 2)) ^ 2 = 8 * s ^ 2 := by
    rw [distanceTo_sq, h1, h2]
    ring
  refine ⟨hb, ?_, ?_, ha, ?_, ?_, ?_⟩
  · rw [distanceTo_sq, h1, h3]
    ring
  · rw [distanceTo_sq, h2, h3]
    ring
  · rw [distanceTo_sq, hn, h2]
    simp only [kappa]
    linear_combination (26569 / 30000 * s ^ 2) * sqrt3_mul_self
  · rw [distanceTo_sq, hn, h3]
    simp only [kappa]
    linear_combination (26569 / 30000 * s ^ 2) * sqrt3_mul_self
  · intro heq
    have hq : (Vec3.distanceTo (newVertex s 1) (centralTetraVertices s 1)) ^ 2
        = (Vec3.distanceTo (centralTetraVertices s 1)
            (centralTetraVertices s 2)) ^ 2 := by rw [heq]
    rw [ha, hb] at hq
    nlinarith [pow_pos hs 2]

/-- Edge-length census of derived tetrahedron 2: the three shared edges
have squared length `8s²` while the three new edges have squared length
`(159707/30000)s²`, a different value. -/
theorem c1_case_2 (s : ℝ) (hs : 0 < s) :
    (Vec3.distanceTo (centralTetraVertices s 2) (centralTetraVertices s 3)) ^ 2
      = 8 * s ^ 2 ∧
    (Vec3.distanceTo (centralTetraVertices s 2) (centralTetraVertices s 0)) ^ 2
      = 8 * s ^ 2 ∧
    (Vec3.distanceTo (centralTetraVertices s 3) (centralTetraVertices s 0)) ^ 2
      = 8 * s ^ 2 ∧
    (Vec3.distanceTo (newVertex s 2) (centralTetraVertices s 2)) ^ 2
      = 159707 / 30000 * s ^ 2 ∧
    (Vec3.distanceTo (newVertex s 2) (centralTetraVertices s 3)) ^ 2
      = 159707 / 30000 * s ^ 2 ∧
    (Vec3.distanceTo (newVertex s 2) (centralTetraVertices s 0)) ^ 2
      = 159707 / 30000 * s ^ 2 ∧
    Vec3.distanceTo (newVertex s 2) (centralTetraVertices s 2)
      ≠ Vec3.distanceTo (centralTetraVertices s 2) (centralTetraVertices s 3) := by
  obtain ⟨h0, h1, h2, h3⟩ := central_closed s
  obtain ⟨-, -, hn⟩ := tetra_closed_2 s hs
  have ha : (Vec3.distanceTo (newVertex s 2) (centralTetraVertices s 2)) ^ 2
      = 159707 / 30000 * s ^ 2 := by
    rw [distanceTo_sq, hn, h2]
    simp only [kappa]
    linear_combination (26569 / 30000 * s ^ 2) * sqrt3_mul_self
  have hb : (Vec3.distanceTo (centralTetraVertices s 2)
      (centralTetraVertices s 3)) ^ 2 = 8 * s ^ 2 := by
    rw [distanceTo_sq, h2, h3]
    ring
  refine ⟨hb, ?_, ?_, ha, ?_, ?_, ?_⟩
  · rw [distanceTo_sq, h2, h0]
    ring
  · rw [distanceTo_sq, h3, h0]
    ring
  · rw [distanceTo_sq, hn, h3]
    simp only [kappa]
    linear_combination (26569 / 30000 * s ^ 2) * sqrt3_mul_self
  · rw [distanceTo_sq, hn, h0]
    simp only [kappa]
    linear_combination (26569 / 30000 * s ^ 2) * sqrt3_mul_self
  · intro heq
    have hq : (Vec3.distanceTo (newVertex s 2) (centralTetraVertices s 2)) ^ 2
        = (Vec3.distanceTo (centralTetraVertices s 2)
            (centralTetraVertices s 3)) ^ 2 := by rw [heq]
    rw [ha, hb] at hq
    nlinarith [pow_pos hs 2]

/-- Edge-length census of derived tetrahedron 3: the three shared edges
have squared length `8s²` while the three new edges have squared length
`(159707/30000)s²`, a different value. -/
theorem c1_case_3 (s : ℝ) (hs : 0 < s) :
    (Vec3.distanceTo (centralTetraVertices s 3) (centralTetraVertices s 0)) ^ 2
      = 8 * s ^ 2 ∧
    (Vec3.distanceTo (centralTetraVertices s 3) (centralTetraVertices s 1)) ^ 2
      = 8 * s ^ 2 ∧
    (Vec3.distanceTo (centralTetraVertices s 0) (centralTetraVertices s 1)) ^ 2
      = 8 * s ^ 2 ∧
    (Vec3.distanceTo (newVertex s 3) (centralTetraVertices s 3)) ^ 2
      = 159707 / 30000 * s ^ 2 ∧
    (Vec3.distanceTo (newVertex s 3) (centralTetraVertices s 0)) ^ 2
      = 159707 / 30000 * s ^ 2 ∧
    (Vec3.distanceTo (newVertex s 3) (centralTetraVertices s 1)) ^ 2
      = 159707 / 30000 * s ^ 2 ∧
    Vec3.distanceTo (newVertex s 3) (centralTetraVertices s 3)
      ≠ Vec3.distanceTo (centralTetraVertices s 3) (centralTetraVertices s 0) := by
  obtain ⟨h0, h1, h2, h3⟩ := central_closed s
  obtain ⟨-, -, hn⟩ := tetra_closed_3 s hs
  have ha : (Vec3.distanceTo (newVertex s 3) (centralTetraVertices s 3)) ^ 2
      = 159707 / 30000 * s ^ 2 := by
    rw [distanceTo_sq, hn, h3]
    simp only [kappa]
    linear_combination (26569 / 30000 * s ^ 2) * sqrt3_mul_self
  have hb : (Vec3.distanceTo (centralTetraVertices s 3)
      (centralTetraVertices s 0)) ^ 2 = 8 * s ^ 2 := by
    rw [distanceTo_sq, h3, h0]
    ring
  refine ⟨hb, ?_, ?_, ha, ?_, ?_, ?_⟩
  · rw [distanceTo_sq, h3, h1]
    ring
  · rw [distanceTo_sq, h0, h1]
    ring
  · rw [distanceTo_sq, hn, h0]
    simp only [kappa]
    linear_combination (26569 / 30000 * s ^ 2) * sqrt3_mul_self
  · rw [distanceTo_sq, hn, h1]
    simp only [kappa]
    linear_combination (26569 / 30000 * s ^ 2) * sqrt3_mul_self
  · intro heq
    have hq : (Vec3.distanceTo (newVertex s 3) (centralTetraVertices s 3)) ^ 2
        = (Vec3.distanceTo (centralTetraVertices s 3)
            (centralTetraVertices s 0)) ^ 2 := by rw [heq]
    rw [ha, hb] at hq
    nlinarith [pow_pos hs 2]

/-- Counterexample to C1: at `scale = 1` the edge from the new vertex of
derived tetrahedron 0 to shared central vertex 0 does not have the central
edge length `2·√2·scale` — the offset factor `1.63` is not the reflection
distance, so the derived tetrahedra are not congruent to the central one. -/
theorem c1_counterexample :
    Vec3.distanceTo (newVertex 1 0) (centralTetraVertices 1 0)
      ≠ 2 * Real.sqrt 2 * 1 := by
  intro heq
  obtain ⟨-, -, -, ha, -, -, -⟩ := c1_case_0 1 one_pos
  have hq : (Vec3.distanceTo (newVertex 1 0) (centralTetraVertices 1 0)) ^ 2
      = (2 * Real.sqrt 2 * 1) ^ 2 := by rw [heq]
  rw [ha] at hq
  rw [mul_one, mul_pow, Real.sq_sqrt (by norm_num : (0 : ℝ) ≤ 2)] at hq
  norm_num at hq

/-- C1 as amended: each derived tetrahedron shares 3 vertices with the
central one, so its 3 shared edges have the central squared edge length
`8·scale²` (edge `2√2·scale`), but its 3 new edges all have squared length
`(1.63² + 8/3)·scale² = (159707/30000)·scale²`, which differs: the new vertex
is at distance `1.63·scale` — not the reflection distance `(4/√3)·scale` —
from the shared centroid, and the derived tetrahedra are not congruent to the
central one. -/
theorem c1_derived_edge_lengths (s : ℝ) (hs : 0 < s) (i : Fin 4) :
    (Vec3.distanceTo (centralTetraVertices s i)
        (centralTetraVertices s (i + 1))) ^ 2 = 8 * s ^ 2 ∧
    (Vec3.distanceTo (centralTetraVertices s i)
        (centralTetraVertices s (i + 2))) ^ 2 = 8 * s ^ 2 ∧
    (Vec3.distanceTo (centralTetraVertices s (i + 1))
        (centralTetraVertices s (i + 2))) ^ 2 = 8 * s ^ 2 ∧
    (Vec3.distanceTo (newVertex s i) (centralTetraVertices s i)) ^ 2
      = 159707 / 30000 * s ^ 2 ∧
    (Vec3.distanceTo (newVertex s i) (centralTetraVertices s (i + 1))) ^ 2
      = 159707 / 30000 * s ^ 2 ∧
    (Vec3.distanceTo (newVertex s i) (centralTetraVertices s (i + 2))) ^ 2
      = 159707 / 30000 * s ^ 2 ∧
    Vec3.distanceTo (newVertex s i) (centralTetraVertices s i)
      ≠ Vec3.distanceTo (centralTetraVertices s i)
          (centralTetraVertices s (i + 1)) := by
  fin_cases i
  · exact c1_case_0 s hs
  · exact c1_case_1 s hs
  · exact c1_case_2 s hs
  · exact c1_case_3 s hs

/-- Witness for `c1_derived_edge_lengths` at `scale = 1`, tetrahedron 0. -/
theorem c1_witness :
    (Vec3.distanceTo (centralTetraVertices 1 0)
        (centralTetraVertices 1 1)) ^ 2 = 8 * 1 ^ 2 ∧
    (Vec3.distanceTo (centralTetraVertices 1 0)
        (centralTetraVertices 1 2)) ^ 2 = 8 * 1 ^ 2 ∧
    (Vec3.distanceTo (centralTetraVertices 1 1)
        (centralTetraVertices 1 2)) ^ 2 = 8 * 1 ^ 2 ∧
    (Vec3.distanceTo (newVertex 1 0) (centralTetraVertices 1 0)) ^ 2
      = 159707 / 30000 * 1 ^ 2 ∧
    (Vec3.distanceTo (newVertex 1 0) (centralTetraVertices 1 1)) ^ 2
      = 159707 / 30000 * 1 ^ 2 ∧
    (Vec3.distanceTo (newVertex 1 0) (centralTetraVertices 1 2)) ^ 2
      = 159707 / 30000 * 1 ^ 2 ∧
    Vec3.distanceTo (newVertex 1 0) (centralTetraVertices 1 0)
      ≠ Vec3.distanceTo (centralTetraVertices 1 0) (centralTetraVertices 1 1) :=
  c1_derived_edge_lengths 1 one_pos 0

/-- C5: the new vertex of derived tetrahedron `i` is
`mid - d·(scale·1.63)` where `mid` is the mean of the three shared central
vertices and `d` the unit vector from `mid` towards the opposite central
vertex; equivalently it lies on the line through `mid` and the opposite
vertex at distance `scale·1.63` from `mid`, on the side away from the
opposite vertex. -/
theorem c5_new_vertex_placement (s : ℝ) (hs : 0 < s) (i : Fin 4) :
    newVertex s i = (sharedMid s i).sub
        (Vec3.smul (s * 1.63) (directionToOpposite s i)) ∧
    Vec3.distanceTo (newVertex s i) (sharedMid s i) = s * 1.63 ∧
    ∃ t : ℝ, t < 0 ∧ (newVertex s i).sub (sharedMid s i)
        = Vec3.smul t
            ((centralTetraVertices s (i + 3)).sub (sharedMid s i)) := by
  have hs3 : (0 : ℝ) < Real.sqrt 3 := Real.sqrt_pos.mpr (by norm_num)
  have htneg : -(163 / 400) * Real.sqrt 3 < 0 := by nlinarith
  fin_cases i
  · obtain ⟨hmid, -, hn⟩ := tetra_closed_0 s hs
    obtain ⟨h0, h1, h2, h3⟩ := central_closed s
    refine ⟨rfl, ?_, ⟨-(163 / 400) * Real.sqrt 3, htneg, ?_⟩⟩
    · show Vec3.distanceTo (newVertex s 0) (sharedMid s 0) = s * 1.63
      rw [Vec3.distanceTo, hn, hmid, Vec3.length]
      simp only [Vec3.sub]
      rw [show (kappa * s - s / 3) ^ 2 + (kappa * s - s / 3) ^ 2
            + (-(kappa * s) - -(s / 3)) ^ 2 = (s * 1.63) ^ 2 by
        simp only [kappa]
        linear_combination (26569 / 30000 * s ^ 2) * sqrt3_mul_self]
      exact Real.sqrt_sq (by positivity)
    · show (newVertex s 0).sub (sharedMid s 0)
        = Vec3.smul (-(163 / 400) * Real.sqrt 3)
            ((centralTetraVertices s 3).sub (sharedMid s 0))
      rw [hn, hmid, h3]
      ext <;> simp only [Vec3.sub, Vec3.smul, kappa] <;> ring
  · obtain ⟨hmid, -, hn⟩ := tetra_closed_1 s hs
    obtain ⟨h0, h1, h2, h3⟩ := central_closed s
    refine ⟨rfl, ?_, ⟨-(163 / 400) * Real.sqrt 3, htneg, ?_⟩⟩
    · show Vec3.distanceTo (newVertex s 1) (sharedMid s 1) = s * 1.63
      rw [Vec3.distanceTo, hn, hmid, Vec3.length]
      simp only [Vec3.sub]
      rw [show (-(kappa * s) - -(s / 3)) ^ 2 + (-(kappa * s) - -(s / 3)) ^ 2
            + (-(kappa * s) - -(s / 3)) ^ 2 = (s * 1.63) ^ 2 by
        simp only [kappa]
        linear_combination (26569 / 30000 * s ^ 2) * sqrt3_mul_self]
      exact Real.sqrt_sq (by positivity)
    · show (newVertex s 1).sub (sharedMid s 1)
        = Vec3.smul (-(163 / 400) * Real.sqrt 3)
            ((centralTetraVertices s 0).sub (sharedMid s 1))
      rw [hn, hmid, h0]
      ext <;> simp only [Vec3.sub, Vec3.smul, kappa] <;> ring
  · obtain ⟨hmid, -, hn⟩ := tetra_closed_2 s hs
    obtain ⟨h0, h1, h2, h3⟩ := central_closed s
    refine ⟨rfl, ?_, ⟨-(163 / 400) * Real.sqrt 3, htneg, ?_⟩⟩
    · show Vec3.distanceTo (newVertex s 2) (sharedMid s 2) = s * 1.63
      rw [Vec3.distanceTo, hn, hmid, Vec3.length]
      simp only [Vec3.sub]
      rw [show (-(kappa * s) - -(s / 3)) ^ 2 + (kappa * s - s / 3) ^ 2
            + (kappa * s - s / 3) ^ 2 = (s * 1.63) ^ 2 by
        simp only [kappa]
        linear_combination (26569 / 30000 * s ^ 2) * sqrt3_mul_self]
      exact Real.sqrt_sq (by positivity)
    · show (newVertex s 2).sub (sharedMid s 2)
        = Vec3.smul (-(163 / 400) * Real.sqrt 3)
            ((centralTetraVertices s 1).sub (sharedMid s 2))
      rw [hn, hmid, h1]
      ext <;> simp only [Vec3.sub, Vec3.smul, kappa] <;> ring
  · obtain ⟨hmid, -, hn⟩ := tetra_closed_3 s hs
    obtain ⟨h0, h1, h2, h3⟩ := central_closed s
    refine ⟨rfl, ?_, ⟨-(163 / 400) * Real.sqrt 3, htneg, ?_⟩⟩
    · show Vec3.distanceTo (newVertex s 3) (sharedMid s 3) = s * 1.63
      rw [Vec3.distanceTo, hn, hmid, Vec3.length]
      simp only [Vec3.sub]
      rw [show (kappa * s - s / 3) ^ 2 + (-(kappa * s) - -(s / 3)) ^ 2
            + (kappa * s - s / 3) ^ 2 = (s * 1.63) ^ 2 by
        simp only [kappa]
        linear_combination (26569 / 30000 * s ^ 2) * sqrt3_mul_self]
      exact Real.sqrt_sq (by positivity)
    · show (newVertex s 3).sub (sharedMid s 3)
        = Vec3.smul (-(163 / 400) * Real.sqrt 3)
            ((centralTetraVertices s 2).sub (sharedMid s 3))
      rw [hn, hmid, h2]
      ext <;> simp only [Vec3.sub, Vec3.smul, kappa] <;> ring

/-- Witness for `c5_new_vertex_placement` at `scale = 1`, tetrahedron 0. -/
theorem c5_witness :
    newVertex 1 0 = (sharedMid 1 0).sub
        (Vec3.smul ((1 : ℝ) * 1.63) (directionToOpposite 1 0)) ∧
    Vec3.distanceTo (newVertex 1 0) (sharedMid 1 0) = (1 : ℝ) * 1.63 ∧
    ∃ t : ℝ, t < 0 ∧ (newVertex 1 0).sub (sharedMid 1 0)
        = Vec3.smul t ((centralTetraVertices 1 3).sub (sharedMid 1 0)) :=
  c5_new_vertex_placement 1 one_pos 0

/-- The `toFixed(6)` key of a positive value: no sign, rounded magnitude. -/
theorem toFixed6Key_pos {v : ℝ} (hv : 0 < v) :
    toFixed6Key v = (false, round (v * 1000000)) := by
  rw [toFixed6Key, if_neg (not_lt.mpr hv.le), abs_of_pos hv]

/-- The `toFixed(6)` key of a negated positive value: sign, same rounded
magnitude. -/
theorem toFixed6Key_neg {v : ℝ} (hv : 0 < v) :
    toFixed6Key (-v) = (true, round (v * 1000000)) := by
  rw [toFixed6Key, if_pos (neg_lt_zero.mpr hv), abs_neg, abs_of_pos hv]

/-- C2: the builder returns exactly 5 tetrahedra, and deduplicating their 20
vertex instances by `toFixed(6)` coordinate key yields exactly 8 distinct
vertices (4 central plus 4 pairwise-distinct new ones, none coinciding with a
central vertex) — strictly fewer than 20. -/
theorem c2_dedup_eight (s : ℝ) (hs : 0 < s) :
    (createMultipleTetrahedrons s).length = 5 ∧ (addedVertices s).card = 8 := by
  refine ⟨rfl, ?_⟩
  obtain ⟨h0, h1, h2, h3⟩ := central_closed s
  obtain ⟨-, -, hn0⟩ := tetra_closed_0 s hs
  obtain ⟨-, -, hn1⟩ := tetra_closed_1 s hs
  obtain ⟨-, -, hn2⟩ := tetra_closed_2 s hs
  obtain ⟨-, -, hn3⟩ := tetra_closed_3 s hs
  have hκ : 0 < kappa * s := by
    have hk : 0 < kappa := by
      rw [kappa]
      positivity
    exact mul_pos hk hs
  have hfin : List.finRange 4 = [0, 1, 2, 3] := rfl
  have e01 : ((0 : Fin 4) + 1) = 1 := rfl
  have e02 : ((0 : Fin 4) + 2) = 2 := rfl
  have e11 : ((1 : Fin 4) + 1) = 2 := rfl
  have e12 : ((1 : Fin 4) + 2) = 3 := rfl
  have e21 : ((2 : Fin 4) + 1) = 3 := rfl
  have e22 : ((2 : Fin 4) + 2) = 0 := rfl
  have e31 : ((3 : Fin 4) + 1) = 0 := rfl
  have e32 : ((3 : Fin 4) + 2) = 1 := rfl
  have hset : addedVertices s =
      {((false, round (s * 1000000)), (false, round (s * 1000000)),
          (false, round (s * 1000000))),
       ((false, round (s * 1000000)), (true, round (s * 1000000)),
          (true, round (s * 1000000))),
       ((true, round (s * 1000000)), (false, round (s * 1000000)),
          (true, round (s * 1000000))),
       ((true, round (s * 1000000)), (true, round (s * 1000000)),
          (false, round (s * 1000000))),
       ((false, round (kappa * s * 1000000)),
          (false, round (kappa * s * 1000000)),
          (true, round (kappa * s * 1000000))),
       ((true, round (kappa * s * 1000000)),
          (true, round (kappa * s * 1000000)),
          (true, round (kappa * s * 1000000))),
       ((true, round (kappa * s * 1000000)),
          (false, round (kappa * s * 1000000)),
          (false, round (kappa * s * 1000000))),
       ((false, round (kappa * s * 1000000)),
          (true, round (kappa * s * 1000000)),
          (false, round (kappa * s * 1000000)))} := by
    rw [addedVertices]
    simp only [createMultipleTetrahedrons, hfin, List.map_cons, List.map_nil,
      List.flatMap_cons, List.flatMap_nil, id_eq, List.cons_append,
      List.nil_append, List.append_nil, e01, e02, e11, e12, e21, e22, e31,
      e32, h0, h1, h2, h3, hn0, hn1, hn2, hn3, vertexKey,
      toFixed6Key_pos hs, toFixed6Key_neg hs, toFixed6Key_pos hκ,
      toFixed6Key_neg hκ, List.toFinset_cons, List.toFinset_nil,
      insert_emptyc_eq]
    ext k
    simp only [Finset.mem_insert, Finset.mem_singleton]
    tauto
  rw [hset]
  rw [Finset.card_insert_of_not_mem (by simp),
    Finset.card_insert_of_not_mem (by simp),
    Finset.card_insert_of_not_mem (by simp),
    Finset.card_insert_of_not_mem (by simp),
    Finset.card_insert_of_not_mem (by simp),
    Finset.card_insert_of_not_mem (by simp),
    Finset.card_insert_of_not_mem (by simp),
    Finset.card_singleton]

/-- Witness for `c2_dedup_eight` at `scale = 1`. -/
theorem c2_witness :
    (createMultipleTetrahedrons 1).length = 5 ∧ (addedVertices 1).card = 8 :=
  c2_dedup_eight 1 one_pos

end ShapeViz
